import Mathlib

/-!
Verification of the ADgent ad-generation pipeline against its design
specification. The Python sources under src/ are shallowly embedded:
pure string and list manipulation becomes Lean functions, completion and
synthesis service calls become explicit oracles (Except values), and
filesystem effects become explicit operation lists or existence predicates.
-/

namespace ADgent

/-! ## Slug normalization (website_to_slug, src/app/api/routes.py 42-52) -/

/-- Characters str.strip with no argument removes (the ASCII whitespace
Python treats as such). -/
def pyIsSpace (c : Char) : Bool :=
  c == ' ' || c == '\t' || c == '\n' || c == '\r' || c == '\x0b' || c == '\x0c'

/-- Removal of characters satisfying p from both ends of a character list,
the semantics of str.strip. -/
def stripEnds (p : Char → Bool) (l : List Char) : List Char :=
  ((l.dropWhile p).reverse.dropWhile p).reverse

/-- ASCII lowercase map; characters outside a-z or A-Z that differ between
this and the Python lower method are replaced by the later character-class
substitution in any case. -/
def asciiLower (c : Char) : Char :=
  if 'A' ≤ c ∧ c ≤ 'Z' then Char.ofNat (c.toNat + 32) else c

/-- The character class kept by the substitution in website_to_slug:
lowercase letters, digits, dot, underscore and dash. -/
def slugAllowedChar (c : Char) : Bool :=
  ('a' ≤ c && c ≤ 'z') || ('0' ≤ c && c ≤ '9') || c == '.' || c == '_' || c == '-'

/-- The characters stripped from both ends at the end of website_to_slug. -/
def slugStripSetChar (c : Char) : Bool :=
  c == '-' || c == '.' || c == '_'

/-- Removal of one leading http or https scheme, modelling the anchored
substitution applied to the lowered input. -/
def stripHttpScheme (l : List Char) : List Char :=
  if ("https://").data.isPrefixOf l then l.drop 8
  else if ("http://").data.isPrefixOf l then l.drop 7
  else l

/-- The normalization pipeline of website_to_slug on the characters of the
input: whitespace strip and lowering, scheme removal, slashes to dashes,
the character-class substitution to dashes, and the final edge strip. -/
def websiteSlugChars (l : List Char) : List Char :=
  let lowered := (stripEnds pyIsSpace l).map asciiLower
  let noScheme := stripHttpScheme lowered
  let dashed := noScheme.map (fun c => if c == '/' then '-' else c)
  let cleaned := dashed.map (fun c => if slugAllowedChar c then c else '-')
  stripEnds slugStripSetChar cleaned

/-- website_to_slug (src/app/api/routes.py): a falsy input (None or the
empty string) gives the slug default, and so does an input whose
normalization comes out empty. -/
def website_to_slug : Option String → String
  | none => "default"
  | some w =>
    if w = "" then "default"
    else
      let r := websiteSlugChars w.data
      if r = [] then "default" else String.mk r

/-! ## Assembly discovery order (process_scenes_and_join, src/ffmpeg_stitched.py 73-98) -/

/-- Lexicographic comparison of character lists by code point, the order the
Python builtin sorted uses on strings. -/
def charsLt : List Char → List Char → Bool
  | [], [] => false
  | [], _ :: _ => true
  | _ :: _, [] => false
  | a :: as, b :: bs =>
    if a.toNat < b.toNat then true
    else if b.toNat < a.toNat then false
    else charsLt as bs

/-- Non-strict lexicographic string order by code point. -/
def pyStrLe (s t : String) : Bool := charsLt s.data t.data || s == t

/-- Stable insertion of a string into an already sorted list. -/
def sortedInsert (s : String) : List String → List String
  | [] => [s]
  | t :: ts => if pyStrLe s t then s :: t :: ts else t :: sortedInsert s ts

/-- The Python builtin sorted on a list of strings: ascending lexicographic
order by code point. -/
def pySortedStr : List String → List String
  | [] => []
  | s :: ss => sortedInsert s (pySortedStr ss)

/-- The endswith check of the listing filter, taken on character data. -/
def strEndsWithMp4 (f : String) : Bool := (".mp4").data.isSuffixOf f.data

/-- Discovery of scene clips in process_scenes_and_join: the directory
listing is filtered to mp4 files and sorted with the builtin sorted, and the
resulting list order is the processing and concatenation order. -/
def discoverVideoFiles (entries : List String) : List String :=
  pySortedStr (entries.filter strEndsWithMp4)

/-! ## Voiceover generation (src/tts_service.py) -/

/-- Python truthiness of an optional duration value: None and 0.0 are
falsy. -/
def truthyDur : Option ℚ → Bool
  | none => false
  | some x => decide (x ≠ 0)

/-- Duration of the audio ffmpeg writes when the output is cut at time t:
the stream is truncated at t and never lengthened. -/
def trimmedDuration (d t : ℚ) : ℚ := min d t

/-- Observable outcome of the duration-fitting tail of generate_voiceover:
the clipped_to_video flag, the reported duration_seconds, and the duration
of the audio file finally on disk (none while a probe failed and the file
was not rewritten). -/
structure FitOutcome where
  clipped : Bool
  durationSeconds : Option ℚ
  fileDuration : Option ℚ
  deriving Repr, DecidableEq

/-- Duration fitting in generate_voiceover (src/tts_service.py 61-86): the
written audio is probed (audioDuration, none when probing fails); when the
supplied max_duration and the probed duration are both truthy and the audio
exceeds the target, the audio is re-encoded with output option t set to
max_duration, the temporary file replaces the original, and the duration is
probed again with max_duration as fallback for a falsy probe. In every other
case the file is left untouched. -/
def fitVoiceover (audioDuration maxDuration : Option ℚ) : FitOutcome :=
  match maxDuration, audioDuration with
  | some t, some d =>
    if t ≠ 0 ∧ d ≠ 0 ∧ t < d then
      let reprobe : Option ℚ := some (trimmedDuration d t)
      { clipped := true
        durationSeconds := if truthyDur reprobe then reprobe else some t
        fileDuration := some (trimmedDuration d t) }
    else
      { clipped := false, durationSeconds := audioDuration, fileDuration := audioDuration }
  | _, _ =>
    { clipped := false, durationSeconds := audioDuration, fileDuration := audioDuration }

/-- Python truthiness of an optional string: None and the empty string are
falsy. -/
def truthyStr : Option String → Bool
  | none => false
  | some s => decide (s ≠ "")

/-- One storyboard entry as the voiceover batch loop reads it. -/
structure VScene where
  voiceOverText : Option String

/-- One entry of the list generate_all_voiceovers returns: the success
dictionary of generate_voiceover (payload abstracted to a number) or the
failure record appended by the except branch. -/
inductive VoiceResult
  | ok (sceneIndex : ℕ) (payload : ℕ)
  | failed (sceneIndex : ℕ) (error : String)
  deriving Repr, DecidableEq

def VoiceResult.sceneIndex : VoiceResult → ℕ
  | .ok i _ => i
  | .failed i _ => i

/-- The loop of generate_all_voiceovers (src/tts_service.py 89-126): scenes
are enumerated from 1, entries with falsy voice_over_text are skipped
without any record, and for the rest generate_voiceover is called (modelled
by the oracle tts, whose error value stands for a raised exception) with the
failure recorded in place rather than propagated. -/
def voiceoverLoop (tts : ℕ → Except String ℕ) : ℕ → List VScene → List VoiceResult
  | _, [] => []
  | i, s :: rest =>
    if truthyStr s.voiceOverText then
      (match tts i with
       | Except.ok p => VoiceResult.ok i p
       | Except.error e => VoiceResult.failed i e) :: voiceoverLoop tts (i + 1) rest
    else voiceoverLoop tts (i + 1) rest

/-- generate_all_voiceovers over a storyboard, starting enumeration at 1. -/
def generate_all_voiceovers (storyboard : List VScene) (tts : ℕ → Except String ℕ) :
    List VoiceResult :=
  voiceoverLoop tts 1 storyboard

/-! ## Character consistency analysis (src/app/api/routes.py 163-328, 715-733) -/

/-- A value of the JSON array reference_scenes returned by the completion
service: an integer, or anything else, which the isinstance check
discards. -/
inductive PyVal
  | int (n : ℤ)
  | other
  deriving Repr, DecidableEq

/-- find_character_reference_scenes (src/app/api/routes.py 257-328) for the
0-based scene index idx: scene 0 returns [] before any call; the completion
call and its JSON parse are the oracle resp, and any raised error degrades
to []; of the returned values only integers n with 0 < n ≤ idx are kept and
converted to the 0-based index n - 1. -/
def find_character_reference_scenes (idx : ℕ) (resp : Except String (List PyVal)) :
    List ℕ :=
  if idx = 0 then []
  else
    match resp with
    | Except.error _ => []
    | Except.ok nums =>
      nums.filterMap fun v =>
        match v with
        | PyVal.int n => if 0 < n ∧ n ≤ (idx : ℤ) then some (n - 1).toNat else none
        | PyVal.other => none

/-- identify_characters_across_scenes (src/app/api/routes.py 199-254): the
parsed scenes array of the reply, a list of scene_number and character-list
pairs, becomes a mapping keyed by scene_number - 1; any raised error
degrades to the empty mapping. -/
def identify_characters_across_scenes
    (resp : Except String (List (ℤ × List String))) : List (ℤ × List String) :=
  match resp with
  | Except.error _ => []
  | Except.ok scenesInfo => scenesInfo.map fun p => (p.1 - 1, p.2)

/-- should_include_character (src/app/api/routes.py 715-733): the reply is
stripped, lowered and matched for a leading y; a raised service error is
re-raised as an HTTP 500 detail, not degraded. -/
def should_include_character (resp : Except String String) : Except String Bool :=
  match resp with
  | Except.ok answer => Except.ok ((answer.trim.map Char.toLower).startsWith "y")
  | Except.error e => Except.error ("OpenAI call failed: " ++ e)

/-- Per-scene entry of the mapping analyze_character_usage builds. -/
structure SceneInfo where
  includeMainCharacter : Bool
  referenceScenes : List ℕ
  charactersPresent : List String
  deriving Repr, DecidableEq

/-- Lookup in the character-mentions dict with default []; a dict keeps the
last binding of a repeated key, hence the search over the reversed list. -/
def dictGet (m : List (ℤ × List String)) (i : ℤ) : List String :=
  match m.reverse.find? (fun p => p.1 = i) with
  | some p => p.2
  | none => []

/-- The per-scene loop of analyze_character_usage: for scene i the
main-character decision is taken first (its service error propagates, there
is no handler around it) and then the advisory reference scenes are
collected. incResp and refResp are the oracles of the two completion calls
made for scene i. -/
def analyzeLoop (incResp : ℕ → Except String String)
    (refResp : ℕ → Except String (List PyVal))
    (mentions : List (ℤ × List String)) :
    ℕ → List String → Except String (List (ℕ × SceneInfo))
  | _, [] => Except.ok []
  | i, _ :: rest =>
    match should_include_character (incResp i) with
    | Except.error e => Except.error e
    | Except.ok inc =>
      let refs := find_character_reference_scenes i (refResp i)
      match analyzeLoop incResp refResp mentions (i + 1) rest with
      | Except.error e => Except.error e
      | Except.ok tail =>
        Except.ok ((i, { includeMainCharacter := inc, referenceScenes := refs,
                         charactersPresent := dictGet mentions (i : ℤ) }) :: tail)

/-- analyze_character_usage (src/app/api/routes.py 163-196): pass 1 builds
the mentions mapping, then the per-scene loop runs over the scene
descriptions starting at 0-based index 0. -/
def analyze_character_usage (scenes : List String)
    (idResp : Except String (List (ℤ × List String)))
    (incResp : ℕ → Except String String)
    (refResp : ℕ → Except String (List PyVal)) :
    Except String (List (ℕ × SceneInfo)) :=
  analyzeLoop incResp refResp (identify_characters_across_scenes idResp) 0 scenes

/-! ## Reference collection of generate_scene_image (src/app/api/routes.py 348-406) -/

/-- One reference image attached to the synthesis call: a main-character
foundational asset or the generated image of a scene number. -/
inductive RefImage
  | charAsset (k : ℕ)
  | sceneImg (n : ℕ)
  deriving Repr, DecidableEq

/-- The continuity loop nested in the advisory loop of generate_scene_image:
for each candidate integer index (scene_index - 1 then scene_index - 2) the
loop breaks once the running total — the length of content_parts, character
assets included — has reached MAX_REFERENCE_IMAGES = 2, skips an index whose
0-based form is already an advisory reference, and otherwise attaches the
image of a positive index when it exists on disk. The break is modelled
per element; the guard is monotone, so guarding every later element is the
same as stopping. -/
def addRecentScenes (referenceScenes : List ℕ) (existsImg : ℕ → Bool) :
    List ℤ → List RefImage → List RefImage
  | [], parts => parts
  | idx :: rest, parts =>
    if 2 ≤ parts.length then parts
    else if (referenceScenes.map (fun r => (r : ℤ))).contains (idx - 1) then
      addRecentScenes referenceScenes existsImg rest parts
    else if 0 < idx ∧ existsImg idx.toNat = true then
      addRecentScenes referenceScenes existsImg rest (parts ++ [RefImage.sceneImg idx.toNat])
    else addRecentScenes referenceScenes existsImg rest parts

/-- The advisory loop of generate_scene_image: each advisory 0-based index r
attaches the image of scene r + 1 when it exists, with no cap of its own,
and then — the continuity block is nested inside this loop in the source —
runs the continuity additions over scene_index - 1 and scene_index - 2. -/
def addAdvisoryRefs (sceneIndex : ℕ) (referenceScenes : List ℕ) (existsImg : ℕ → Bool) :
    List ℕ → List RefImage → List RefImage
  | [], parts => parts
  | r :: rest, parts =>
    let withAdvisory :=
      if existsImg (r + 1) = true then parts ++ [RefImage.sceneImg (r + 1)] else parts
    let withContinuity := addRecentScenes referenceScenes existsImg
      [(sceneIndex : ℤ) - 1, (sceneIndex : ℤ) - 2] withAdvisory
    addAdvisoryRefs sceneIndex referenceScenes existsImg rest withContinuity

/-- The content_parts list generate_scene_image hands to the synthesis call
for the 1-based sceneIndex: the character assets first when the main
character is included, then the advisory loop with its nested continuity
additions. existsImg tells whether the canonical image of a scene number
exists on disk. -/
def collectReferences (sceneIndex : ℕ) (includeMainChar : Bool) (charAssets : List ℕ)
    (referenceScenes : List ℕ) (existsImg : ℕ → Bool) : List RefImage :=
  addAdvisoryRefs sceneIndex referenceScenes existsImg referenceScenes
    (if includeMainChar then charAssets.map RefImage.charAsset else [])

/-- Number of attached references that are not character foundational
assets. -/
def sceneImgCount (parts : List RefImage) : ℕ :=
  parts.countP fun p =>
    match p with
    | RefImage.sceneImg _ => true
    | RefImage.charAsset _ => false

/-! ## The synthesis fallback cascade (src/app/api/routes.py 430-594) -/

/-- A reply of the image-synthesis service to one generate_content call, as
the cascade branches on it: a candidate finishing with STOP, one finishing
with IMAGE_OTHER, one finishing with another non-STOP reason, a reply with
an empty candidate list, and a raised transport error. -/
inductive Resp
  | stop
  | imageOther
  | otherReason
  | noCandidates
  | transportError
  deriving Repr, DecidableEq

inductive Outcome
  | success
  | failure
  deriving Repr, DecidableEq

/-- Candidate update in fallback strategies B and C: a raised transport
error is caught locally and a reply without candidates skips the
assignment, so both leave the current candidate in place; any reply with a
candidate replaces it. -/
def updCand (cur r : Resp) : Resp :=
  match r with
  | Resp.transportError => cur
  | Resp.noCandidates => cur
  | other => other

/-- Strategies B, C and D of the progressive fallback (lines 500-594).
B calls with the single preceding-scene image when scene_index > 1 and that
image exists; C calls with the first advisory reference image when the
candidate has still not stopped, advisory references exist and that image
exists; when the candidate has still not stopped, D calls with no images —
a raise there, a reply whose candidate does not stop, or a reply without
candidates (which leaves the stale non-stop candidate for the extraction
code) are all terminal failure. Returns the reference-image count of each
call made, in order, with the terminal outcome. -/
def fallbackBCD (sceneIndex : ℕ) (recentExists charRefExists refsNonempty : Bool)
    (rB rC rD : Resp) : List ℕ × Outcome :=
  let stB : List ℕ × Resp :=
    if 1 < sceneIndex ∧ recentExists = true then ([1], updCand Resp.imageOther rB)
    else ([], Resp.imageOther)
  let stC : List ℕ × Resp :=
    if stB.2 ≠ Resp.stop ∧ refsNonempty = true ∧ charRefExists = true then
      (stB.1 ++ [1], updCand stB.2 rC)
    else stB
  if stC.2 = Resp.stop then (stC.1, Outcome.success)
  else
    match rD with
    | Resp.stop => (stC.1 ++ [0], Outcome.success)
    | _ => (stC.1 ++ [0], Outcome.failure)

/-- The full cascade of generate_scene_image: Strategy A with the k images
of the collected reference set; on IMAGE_OTHER an immediate retry with zero
images (lines 467-489); then — behind the duplicated finish-reason check —
the progressive fallback runs when the retry also returned IMAGE_OTHER.
Any other non-STOP reason, empty candidate list or raised error is terminal
failure for the scene. The image extraction of the success path is
abstracted into the success outcome. -/
def runCascade (k sceneIndex : ℕ) (recentExists charRefExists refsNonempty : Bool)
    (rA rARetry rB rC rD : Resp) : List ℕ × Outcome :=
  match rA with
  | Resp.stop => ([k], Outcome.success)
  | Resp.imageOther =>
    match rARetry with
    | Resp.stop => ([k, 0], Outcome.success)
    | Resp.imageOther =>
      let f := fallbackBCD sceneIndex recentExists charRefExists refsNonempty rB rC rD
      (k :: 0 :: f.1, f.2)
    | _ => ([k, 0], Outcome.failure)
  | _ => ([k], Outcome.failure)

/-- Monotone non-increase of a list of reference counts, the order property
the specification claims for the cascade. -/
def decreasingCounts : List ℕ → Bool
  | [] => true
  | [_] => true
  | a :: b :: t => (b ≤ a : Bool) && decreasingCounts (b :: t)

/-! ## The canonical image write (src/app/api/routes.py 626-634) -/

/-- A filesystem operation the save block performs. -/
inductive FsOp
  | makedirs (path : String)
  | write (path : String) (content : ℕ)
  | rename (src : String) (dst : String)
  deriving Repr, DecidableEq

def FsOp.isRename : FsOp → Bool
  | FsOp.rename _ _ => true
  | _ => false

/-- scene_image_path (src/app/api/routes.py 55-58): the canonical image
path for a slug and 1-based scene index. -/
def scene_image_path (slug : String) (sceneIndex : ℕ) : String :=
  "generated_scenes/" ++ slug ++ "/images/scene" ++ toString sceneIndex ++ ".png"

/-- The second path the save block writes, under the images base. -/
def sceneMirrorPath (slug : String) (sceneIndex : ℕ) : String :=
  "images/" ++ slug ++ "/images/scene" ++ toString sceneIndex ++ ".png"

/-- The directory part of a path, as os.path.dirname on these paths. -/
def pathDirname (s : String) : String :=
  String.mk ((((s.data.reverse).dropWhile (fun c => c ≠ '/')).drop 1).reverse)

/-- The save block of generate_scene_image on SUCCESS (lines 626-634),
unrolled over its two target paths: each parent directory is created and
the image bytes are then written directly to the target with open in wb
mode. -/
def saveSceneImageOps (slug : String) (sceneIndex : ℕ) (imageBytes : ℕ) : List FsOp :=
  [FsOp.makedirs (pathDirname (scene_image_path slug sceneIndex)),
   FsOp.write (scene_image_path slug sceneIndex) imageBytes,
   FsOp.makedirs (pathDirname (sceneMirrorPath slug sceneIndex)),
   FsOp.write (sceneMirrorPath slug sceneIndex) imageBytes]

/-- The atomicity discipline the specification claims, stated over the
emitted operations: content reaches the canonical path only through a
rename from a temporary location, never through a direct write. -/
def atomicReplaceWrite (ops : List FsOp) (canonical : String) : Prop :=
  (∃ tmp, FsOp.rename tmp canonical ∈ ops) ∧ ∀ b, FsOp.write canonical b ∉ ops

/-! ## Batch endpoints (src/app/api/routes.py 651-712 and 903-977) -/

/-- One scene record as the batch loops read it. -/
structure BScene where
  sceneDescription : Option String

/-- The per-scene loop of generate_all_storyboard_images (lines 674-700):
every scene is attempted in order, the call to generate_scene_image (the
oracle gen) is wrapped per scene, and a raised exception becomes an error
entry while the loop continues. -/
def storyboardImagesLoop (gen : ℕ → Except String ℕ) : ℕ → List BScene → List (Except String ℕ)
  | _, [] => []
  | i, _ :: rest => gen i :: storyboardImagesLoop gen (i + 1) rest

/-- The summary generate_all_storyboard_images returns. -/
structure BatchSummary where
  totalScenes : ℕ
  successful : ℕ
  failed : ℕ
  results : List (Except String ℕ)
  deriving Repr

/-- generate_all_storyboard_images (lines 651-712): the per-scene results
with the success and failure counts over them. -/
def generate_all_storyboard_images (scenes : List BScene) (gen : ℕ → Except String ℕ) :
    BatchSummary :=
  { totalScenes := scenes.length
    successful := ((storyboardImagesLoop gen 1 scenes).filter (fun r => r.isOk)).length
    failed := ((storyboardImagesLoop gen 1 scenes).filter (fun r => !r.isOk)).length
    results := storyboardImagesLoop gen 1 scenes }

/-- The per-scene loop of generate_scenes (lines 947-977): a scene whose
description is falsy is skipped with continue, and the call to
generate_scene_image is not wrapped per scene, so a raised exception
propagates to the endpoint handler which turns the whole request into an
HTTP 500. -/
def generateScenesLoop (gen : ℕ → Except String ℕ) : ℕ → List BScene → Except String (List ℕ)
  | _, [] => Except.ok []
  | i, s :: rest =>
    if truthyStr s.sceneDescription then
      match gen i with
      | Except.error e => Except.error ("Storyboard processing failed: " ++ e)
      | Except.ok r =>
        match generateScenesLoop gen (i + 1) rest with
        | Except.error e => Except.error e
        | Except.ok tail => Except.ok (r :: tail)
    else generateScenesLoop gen (i + 1) rest

/-- All described scenes succeed, the condition under which the
generate_scenes request comes back successful. -/
def allDescribedOk (gen : ℕ → Except String ℕ) : ℕ → List BScene → Bool
  | _, [] => true
  | i, s :: rest =>
    if truthyStr s.sceneDescription then
      (gen i).isOk && allDescribedOk gen (i + 1) rest
    else allDescribedOk gen (i + 1) rest

/-! ## Theorems about slug normalization and assembly order -/

theorem dropWhile_headD_not (p : Char → Bool) (l : List Char) (d : Char)
    (h : l.dropWhile p ≠ []) : p ((l.dropWhile p).headD d) = false := by
  induction l with
  | nil => simp at h
  | cons c t ih =>
    by_cases hc : p c
    · rw [List.dropWhile_cons, if_pos hc] at h ⊢
      exact ih h
    · rw [List.dropWhile_cons, if_neg hc]
      simpa using hc

theorem headD_append_left (l s : List Char) (d : Char) (h : l ≠ []) :
    (l ++ s).headD d = l.headD d := by
  cases l with
  | nil => exact absurd rfl h
  | cons c t => rfl

theorem getLastD_of_reverse (l : List Char) (d : Char) :
    l.reverse.getLastD d = l.headD d := by
  cases l with
  | nil => rfl
  | cons c t => simp [List.getLastD_concat]

theorem mem_stripEnds (p : Char → Bool) (l : List Char) (c : Char)
    (h : c ∈ stripEnds p l) : c ∈ l := by
  unfold stripEnds at h
  rw [List.mem_reverse] at h
  have h1 := (List.dropWhile_sublist (l := (l.dropWhile p).reverse) p).mem h
  rw [List.mem_reverse] at h1
  exact (List.dropWhile_sublist p).mem h1

theorem stripEnds_headD_not (p : Char → Bool) (l : List Char) (d : Char)
    (h : stripEnds p l ≠ []) : p ((stripEnds p l).headD d) = false := by
  unfold stripEnds at h ⊢
  set A := l.dropWhile p with hA
  set B := A.reverse.dropWhile p with hB
  have hBne : B ≠ [] := by
    intro h0
    exact h (by rw [h0]; rfl)
  have hsplit : A.reverse.takeWhile p ++ B = A.reverse := by
    rw [hB]
    exact List.takeWhile_append_dropWhile p A.reverse
  have hArev : A = B.reverse ++ (A.reverse.takeWhile p).reverse := by
    have := congrArg List.reverse hsplit
    rw [List.reverse_append, List.reverse_reverse] at this
    exact this.symm
  have hBrevne : B.reverse ≠ [] := by
    intro h0
    exact hBne (by simpa using congrArg List.reverse h0)
  have hheads : (B.reverse).headD d = A.headD d := by
    conv_rhs => rw [hArev]
    exact (headD_append_left _ _ d hBrevne).symm
  have hAne : A ≠ [] := by
    intro h0
    rw [h0] at hArev
    rcases List.append_eq_nil.mp hArev.symm with ⟨h1, _⟩
    exact hBrevne h1
  rw [hheads]
  exact dropWhile_headD_not p l d hAne

theorem stripEnds_getLastD_not (p : Char → Bool) (l : List Char) (d : Char)
    (h : stripEnds p l ≠ []) : p ((stripEnds p l).getLastD d) = false := by
  unfold stripEnds at h ⊢
  set A := l.dropWhile p with hA
  set B := A.reverse.dropWhile p with hB
  have hBne : B ≠ [] := by
    intro h0
    exact h (by rw [h0]; rfl)
  rw [getLastD_of_reverse]
  exact dropWhile_headD_not p A.reverse d hBne

/-- C9: website_to_slug always returns a non-empty string of characters
drawn from lowercase letters, digits, dot, underscore and dash, with no
leading or trailing dash, dot or underscore; None, the empty string, and any
input whose normalization comes out empty give the literal slug default. -/
theorem c9_website_to_slug_safe (w : Option String) :
    website_to_slug w ≠ "" ∧
    (∀ c ∈ (website_to_slug w).data, slugAllowedChar c = true) ∧
    slugStripSetChar ((website_to_slug w).data.headD 'x') = false ∧
    slugStripSetChar ((website_to_slug w).data.getLastD 'x') = false ∧
    website_to_slug none = "default" ∧
    website_to_slug (some "") = "default" ∧
    (∀ s : String, websiteSlugChars s.data = [] → website_to_slug (some s) = "default") := by
  have hdefault : ("default" : String).data = ['d', 'e', 'f', 'a', 'u', 'l', 't'] := by decide
  have hdef_all : (∀ c ∈ ("default" : String).data, slugAllowedChar c = true) ∧
      slugStripSetChar (("default" : String).data.headD 'x') = false ∧
      slugStripSetChar (("default" : String).data.getLastD 'x') = false ∧
      ("default" : String) ≠ "" := by
    refine ⟨?_, by decide, by decide, by decide⟩
    intro c hc
    rw [hdefault] at hc
    fin_cases hc <;> decide
  have hcleaned : ∀ l : List Char, ∀ c ∈ websiteSlugChars l, slugAllowedChar c = true := by
    intro l c hc
    have hmem := mem_stripEnds slugStripSetChar _ c hc
    rcases List.mem_map.mp hmem with ⟨b, _, hb⟩
    by_cases hab : slugAllowedChar b
    · rw [if_pos hab] at hb
      rw [← hb]
      exact hab
    · rw [if_neg hab] at hb
      rw [← hb]
      decide
  rcases w with _ | s
  · exact ⟨hdef_all.2.2.2, hdef_all.1, hdef_all.2.1, hdef_all.2.2.1, rfl, rfl,
      fun s h => by simp [website_to_slug, h]⟩
  · by_cases hs : s = ""
    · subst hs
      exact ⟨hdef_all.2.2.2, hdef_all.1, hdef_all.2.1, hdef_all.2.2.1, rfl, rfl,
        fun s h => by simp [website_to_slug, h]⟩
    · by_cases hr : websiteSlugChars s.data = []
      · refine ⟨?_, ?_, ?_, ?_, rfl, rfl, fun s h => by simp [website_to_slug, h]⟩ <;>
          simp only [website_to_slug, if_neg hs, if_pos hr]
        · exact hdef_all.2.2.2
        · exact hdef_all.1
        · exact hdef_all.2.1
        · exact hdef_all.2.2.1
      · have hres : website_to_slug (some s) = String.mk (websiteSlugChars s.data) := by
          simp [website_to_slug, if_neg hs, if_neg hr]
        have hdata : (website_to_slug (some s)).data = websiteSlugChars s.data := by
          rw [hres]
        refine ⟨?_, ?_, ?_, ?_, rfl, rfl, fun s h => by simp [website_to_slug, h]⟩
        · rw [hres]
          intro h0
          apply hr
          have := congrArg String.data h0
          simpa using this
        · rw [hdata]
          exact hcleaned s.data
        · rw [hdata]
          exact stripEnds_headD_not slugStripSetChar _ 'x' hr
        · rw [hdata]
          exact stripEnds_getLastD_not slugStripSetChar _ 'x' hr

/-- C7: evaluation of the video discovery order of process_scenes_and_join
on a directory holding scene1.mp4, scene2.mp4 and scene10.mp4. The builtin
sorted orders the names lexically, so scene10 is processed and concatenated
between scene1 and scene2, not after them as numeric scene order requires. -/
theorem c7_assembly_order_is_lexical :
    discoverVideoFiles ["scene1.mp4", "scene2.mp4", "scene10.mp4"] =
      ["scene1.mp4", "scene10.mp4", "scene2.mp4"] := by decide

/-! ## Theorems about the narrator -/

/-- C8: with a positive supplied target duration and a successfully measured
audio duration, generate_voiceover truncates the audio to exactly the target
and reports it clipped when the measurement exceeds the target, and leaves
the file unmodified (and unclipped) otherwise. -/
theorem c8_duration_fitting (t d : ℚ) (ht : 0 < t) :
    (t < d → fitVoiceover (some d) (some t) =
      { clipped := true, durationSeconds := some t, fileDuration := some t }) ∧
    (d ≤ t → fitVoiceover (some d) (some t) =
      { clipped := false, durationSeconds := some d, fileDuration := some d }) := by
  constructor
  · intro hlt
    have htne : t ≠ 0 := ne_of_gt ht
    have hdne : d ≠ 0 := ne_of_gt (lt_trans ht hlt)
    have hmin : trimmedDuration d t = t := min_eq_right (le_of_lt hlt)
    have htruthy : truthyDur (some (trimmedDuration d t)) = true := by
      rw [hmin]
      simpa [truthyDur] using htne
    simp [fitVoiceover, htne, hdne, hlt, htruthy, hmin]
  · intro hle
    have hnlt : ¬ (t ≠ 0 ∧ d ≠ 0 ∧ t < d) := by
      rintro ⟨_, _, hlt⟩
      exact absurd hle (not_le_of_lt hlt)
    simp [fitVoiceover, hnlt]

/-- C8 witness: an 8 second narration against a 5 second target is clipped
to exactly 5 seconds; a 3 second narration against the same target is left
unmodified. -/
theorem c8_duration_fitting_witness :
    fitVoiceover (some 8) (some 5) =
      { clipped := true, durationSeconds := some 5, fileDuration := some 5 } ∧
    fitVoiceover (some 3) (some 5) =
      { clipped := false, durationSeconds := some 3, fileDuration := some 3 } :=
  ⟨(c8_duration_fitting 5 8 (by norm_num)).1 (by norm_num),
   (c8_duration_fitting 5 3 (by norm_num)).2 (by norm_num)⟩

theorem voiceoverLoop_index_lb (tts : ℕ → Except String ℕ) (sb : List VScene) :
    ∀ i, ∀ r ∈ voiceoverLoop tts i sb, i ≤ r.sceneIndex := by
  induction sb with
  | nil => intro i r hr; simp [voiceoverLoop] at hr
  | cons s rest ih =>
    intro i r hr
    rw [voiceoverLoop] at hr
    by_cases hs : truthyStr s.voiceOverText
    · rw [if_pos hs] at hr
      rcases List.mem_cons.mp hr with h | h
      · subst h
        cases htts : tts i <;> simp [htts, VoiceResult.sceneIndex]
      · exact le_trans (Nat.le_succ i) (ih (i + 1) r h)
    · rw [if_neg hs] at hr
      exact le_trans (Nat.le_succ i) (ih (i + 1) r hr)

theorem voiceoverLoop_chain (tts : ℕ → Except String ℕ) (sb : List VScene) :
    ∀ i, List.Chain' (fun a b => a.sceneIndex < b.sceneIndex) (voiceoverLoop tts i sb) := by
  induction sb with
  | nil => intro i; simp [voiceoverLoop]
  | cons s rest ih =>
    intro i
    rw [voiceoverLoop]
    by_cases hs : truthyStr s.voiceOverText
    · rw [if_pos hs]
      rw [List.chain'_cons']
      refine ⟨?_, ih (i + 1)⟩
      intro b hb
      have hmem : b ∈ voiceoverLoop tts (i + 1) rest := List.mem_of_mem_head? hb
      have hlb := voiceoverLoop_index_lb tts rest (i + 1) b hmem
      have hidx : (match tts i with
          | Except.ok p => VoiceResult.ok i p
          | Except.error e => VoiceResult.failed i e).sceneIndex = i := by
        cases tts i <;> rfl
      rw [hidx]
      omega
    · rw [if_neg hs]
      exact ih (i + 1)

theorem voiceoverLoop_mem_iff (tts : ℕ → Except String ℕ) (sb : List VScene) :
    ∀ i j, j < sb.length →
      ((i + j) ∈ (voiceoverLoop tts i sb).map VoiceResult.sceneIndex
        ↔ truthyStr ((sb.getD j ⟨none⟩).voiceOverText) = true) := by
  induction sb with
  | nil => intro i j hj; simp at hj
  | cons s rest ih =>
    intro i j hj
    rw [voiceoverLoop]
    cases j with
    | zero =>
      simp only [Nat.add_zero, List.getD_cons_zero]
      by_cases hs : truthyStr s.voiceOverText
      · rw [if_pos hs]
        have hidx : (match tts i with
            | Except.ok p => VoiceResult.ok i p
            | Except.error e => VoiceResult.failed i e).sceneIndex = i := by
          cases tts i <;> rfl
        simp [hidx, hs]
      · rw [if_neg hs]
        constructor
        · intro hmem
          rcases List.mem_map.mp hmem with ⟨r, hr, hidx⟩
          have := voiceoverLoop_index_lb tts rest (i + 1) r hr
          omega
        · intro htr
          exact absurd htr (by simpa using hs)
    | succ jj =>
      have hjj : jj < rest.length := by simpa using hj
      have harith : i + (jj + 1) = (i + 1) + jj := by omega
      simp only [List.getD_cons_succ]
      by_cases hs : truthyStr s.voiceOverText
      · rw [if_pos hs]
        have hidx : (match tts i with
            | Except.ok p => VoiceResult.ok i p
            | Except.error e => VoiceResult.failed i e).sceneIndex = i := by
          cases tts i <;> rfl
        rw [List.map_cons, hidx, harith]
        rw [List.mem_cons]
        have hne : ¬ ((i + 1) + jj = i) := by omega
        constructor
        · intro h
          rcases h with h | h
          · exact absurd h hne
          · exact (ih (i + 1) jj hjj).mp h
        · intro h
          exact Or.inr ((ih (i + 1) jj hjj).mpr h)
      · rw [if_neg hs, harith]
        exact ih (i + 1) jj hjj

theorem voiceoverLoop_entries (tts : ℕ → Except String ℕ) (sb : List VScene) :
    ∀ i, ∀ r ∈ voiceoverLoop tts i sb,
      (∃ p, r = VoiceResult.ok r.sceneIndex p ∧ tts r.sceneIndex = Except.ok p) ∨
      (∃ e, r = VoiceResult.failed r.sceneIndex e ∧ tts r.sceneIndex = Except.error e) := by
  induction sb with
  | nil => intro i r hr; simp [voiceoverLoop] at hr
  | cons s rest ih =>
    intro i r hr
    rw [voiceoverLoop] at hr
    by_cases hs : truthyStr s.voiceOverText
    · rw [if_pos hs] at hr
      rcases List.mem_cons.mp hr with h | h
      · subst h
        cases htts : tts i with
        | ok p => exact Or.inl ⟨p, rfl, by simpa [VoiceResult.sceneIndex] using htts⟩
        | error e => exact Or.inr ⟨e, rfl, by simpa [VoiceResult.sceneIndex] using htts⟩
      · exact ih (i + 1) r h
    · rw [if_neg hs] at hr
      exact ih (i + 1) r hr

/-- C10: generate_all_voiceovers returns entries with strictly increasing
1-based scene indices; scene index j + 1 has an entry exactly when the
storyboard entry at position j has a present non-empty voice_over_text; and
every entry is either a success matching a successful synthesis call or a
recorded per-scene failure carrying the raised error, so a failure never
propagates and skipped scenes produce no record at all. -/
theorem c10_voiceover_results (storyboard : List VScene) (tts : ℕ → Except String ℕ) :
    List.Chain' (fun a b => a.sceneIndex < b.sceneIndex)
      (generate_all_voiceovers storyboard tts) ∧
    (∀ j, j < storyboard.length →
      ((j + 1) ∈ (generate_all_voiceovers storyboard tts).map VoiceResult.sceneIndex
        ↔ truthyStr ((storyboard.getD j ⟨none⟩).voiceOverText) = true)) ∧
    (∀ r ∈ generate_all_voiceovers storyboard tts,
      (∃ p, r = VoiceResult.ok r.sceneIndex p ∧ tts r.sceneIndex = Except.ok p) ∨
      (∃ e, r = VoiceResult.failed r.sceneIndex e ∧ tts r.sceneIndex = Except.error e)) := by
  refine ⟨voiceoverLoop_chain tts storyboard 1, ?_, voiceoverLoop_entries tts storyboard 1⟩
  intro j hj
  have := voiceoverLoop_mem_iff tts storyboard 1 j hj
  rwa [Nat.add_comm 1 j] at this

/-! ## Theorems about the reference budgeter and the analyzer -/

theorem find_refs_lt (idx : ℕ) (resp : Except String (List PyVal)) :
    ∀ j ∈ find_character_reference_scenes idx resp, j < idx := by
  intro j hj
  unfold find_character_reference_scenes at hj
  by_cases h0 : idx = 0
  · rw [if_pos h0] at hj
    simp at hj
  · rw [if_neg h0] at hj
    cases resp with
    | error e => simp at hj
    | ok nums =>
      rcases List.mem_filterMap.mp hj with ⟨v, _, hv⟩
      cases v with
      | other => simp at hv
      | int n =>
        dsimp only at hv
        split at hv
        · rename_i hrange
          have hj' : (n - 1).toNat = j := Option.some.inj hv
          omega
        · exact absurd hv (by simp)

theorem mem_addRecentScenes_sceneImg (referenceScenes : List ℕ) (existsImg : ℕ → Bool)
    (si : ℕ) :
    ∀ (l : List ℤ) (parts : List RefImage),
      (∀ idx ∈ l, idx < (si : ℤ)) →
      (∀ n, RefImage.sceneImg n ∈ parts → n < si) →
      ∀ n, RefImage.sceneImg n ∈ addRecentScenes referenceScenes existsImg l parts →
        n < si := by
  intro l
  induction l with
  | nil =>
    intro parts _ hp n hn
    exact hp n hn
  | cons idx rest ih =>
    intro parts hl hp n hn
    rw [addRecentScenes] at hn
    by_cases h2 : 2 ≤ parts.length
    · rw [if_pos h2] at hn
      exact hp n hn
    · rw [if_neg h2] at hn
      by_cases hdup : (referenceScenes.map (fun r => (r : ℤ))).contains (idx - 1)
      · rw [if_pos hdup] at hn
        exact ih parts (fun x hx => hl x (List.mem_cons_of_mem idx hx)) hp n hn
      · rw [if_neg hdup] at hn
        by_cases hadd : 0 < idx ∧ existsImg idx.toNat = true
        · rw [if_pos hadd] at hn
          refine ih _ (fun x hx => hl x (List.mem_cons_of_mem idx hx)) ?_ n hn
          intro m hm
          rcases List.mem_append.mp hm with h | h
          · exact hp m h
          · have hidx : idx < (si : ℤ) := hl idx (List.mem_cons_self idx rest)
            have hm' : m = idx.toNat :=
              RefImage.sceneImg.inj (List.mem_singleton.mp h)
            omega
        · rw [if_neg hadd] at hn
          exact ih parts (fun x hx => hl x (List.mem_cons_of_mem idx hx)) hp n hn

theorem mem_addAdvisoryRefs_sceneImg (si : ℕ) (referenceScenes : List ℕ)
    (existsImg : ℕ → Bool) :
    ∀ (rest : List ℕ) (parts : List RefImage),
      (∀ r ∈ rest, r + 1 < si) →
      (∀ n, RefImage.sceneImg n ∈ parts → n < si) →
      ∀ n, RefImage.sceneImg n ∈ addAdvisoryRefs si referenceScenes existsImg rest parts →
        n < si := by
  intro rest
  induction rest with
  | nil =>
    intro parts _ hp n hn
    exact hp n hn
  | cons r rrest ih =>
    intro parts hr hp n hn
    rw [addAdvisoryRefs] at hn
    have hadv : ∀ n, RefImage.sceneImg n ∈
        (if existsImg (r + 1) = true then parts ++ [RefImage.sceneImg (r + 1)] else parts) →
        n < si := by
      intro m hm
      by_cases he : existsImg (r + 1) = true
      · rw [if_pos he] at hm
        rcases List.mem_append.mp hm with h | h
        · exact hp m h
        · have hm' : m = r + 1 := RefImage.sceneImg.inj (List.mem_singleton.mp h)
          rw [hm']
          exact hr r (List.mem_cons_self r rrest)
      · rw [if_neg he] at hm
        exact hp m hm
    have hcont : ∀ n, RefImage.sceneImg n ∈ addRecentScenes referenceScenes existsImg
        [(si : ℤ) - 1, (si : ℤ) - 2]
        (if existsImg (r + 1) = true then parts ++ [RefImage.sceneImg (r + 1)] else parts) →
        n < si := by
      refine mem_addRecentScenes_sceneImg referenceScenes existsImg si _ _ ?_ hadv
      intro idx hidx
      rcases List.mem_cons.mp hidx with h | h
      · omega
      · rcases List.mem_singleton.mp h with h'
        omega
    exact ih _ (fun x hx => hr x (List.mem_cons_of_mem r hx)) hcont n hn

/-- C1: the advisory indices find_character_reference_scenes returns for a
scene are always strictly below that scene index, whatever the completion
service replies; and for any 1-based scene the images generate_scene_image
attaches — advisory references from the analyzer and preceding-scene
continuity images alike — carry scene numbers strictly below the scene being
generated, never its own or a later one. -/
theorem c1_reference_scenes_no_forward (sceneIndex : ℕ) (h1 : 1 ≤ sceneIndex) :
    (∀ idx resp, ∀ j ∈ find_character_reference_scenes idx resp, j < idx) ∧
    (∀ (resp : Except String (List PyVal)) (includeMainChar : Bool)
       (charAssets : List ℕ) (existsImg : ℕ → Bool) (n : ℕ),
      RefImage.sceneImg n ∈ collectReferences sceneIndex includeMainChar charAssets
        (find_character_reference_scenes (sceneIndex - 1) resp) existsImg →
      n < sceneIndex) := by
  refine ⟨fun idx resp => find_refs_lt idx resp, ?_⟩
  intro resp includeMainChar charAssets existsImg n hn
  unfold collectReferences at hn
  refine mem_addAdvisoryRefs_sceneImg sceneIndex _ existsImg _ _ ?_ ?_ n hn
  · intro r hr
    have := find_refs_lt (sceneIndex - 1) resp r hr
    omega
  · intro m hm
    by_cases hinc : includeMainChar
    · rw [if_pos hinc] at hm
      rcases List.mem_map.mp hm with ⟨k, _, hk⟩
      exact absurd hk (by simp)
    · rw [if_neg hinc] at hm
      simp at hm

/-- C1 witness: for scene 3 with the analyzer returning scene number 1, the
attached reference set contains the image of scene 1 and that number is
below 3. -/
theorem c1_reference_scenes_no_forward_witness :
    RefImage.sceneImg 1 ∈ collectReferences 3 false []
      (find_character_reference_scenes 2 (Except.ok [PyVal.int 1])) (fun _ => true) ∧
    (1 : ℕ) < 3 :=
  ⟨by decide,
   (c1_reference_scenes_no_forward 3 (by decide)).2 (Except.ok [PyVal.int 1]) false []
     (fun _ => true) 1 (by decide)⟩

theorem addRecentScenes_growth (referenceScenes : List ℕ) (existsImg : ℕ → Bool) :
    ∀ (l : List ℤ) (parts : List RefImage), ∃ d,
      (addRecentScenes referenceScenes existsImg l parts).length = parts.length + d ∧
      sceneImgCount (addRecentScenes referenceScenes existsImg l parts)
        = sceneImgCount parts + d ∧
      (d = 0 ∨ parts.length + d ≤ 2) := by
  intro l
  induction l with
  | nil =>
    intro parts
    exact ⟨0, by simp [addRecentScenes], by simp [addRecentScenes], Or.inl rfl⟩
  | cons idx rest ih =>
    intro parts
    rw [addRecentScenes]
    by_cases h2 : 2 ≤ parts.length
    · rw [if_pos h2]
      exact ⟨0, by simp, by simp, Or.inl rfl⟩
    · rw [if_neg h2]
      by_cases hdup : (referenceScenes.map (fun r => (r : ℤ))).contains (idx - 1)
      · rw [if_pos hdup]
        exact ih parts
      · rw [if_neg hdup]
        by_cases hadd : 0 < idx ∧ existsImg idx.toNat = true
        · rw [if_pos hadd]
          rcases ih (parts ++ [RefImage.sceneImg idx.toNat]) with ⟨d, hlen, hcnt, hd⟩
          have happ : (parts ++ [RefImage.sceneImg idx.toNat]).length = parts.length + 1 := by
            simp
          have hcntapp : sceneImgCount (parts ++ [RefImage.sceneImg idx.toNat])
              = sceneImgCount parts + 1 := by
            simp [sceneImgCount, List.countP_append]
          rw [happ] at hlen hd
          rw [hcntapp] at hcnt
          refine ⟨d + 1, by omega, by omega, ?_⟩
          right
          rcases hd with h | h <;> omega
        · rw [if_neg hadd]
          exact ih parts

theorem addAdvisoryRefs_count (si : ℕ) (referenceScenes : List ℕ) (existsImg : ℕ → Bool) :
    ∀ (rest : List ℕ) (parts : List RefImage),
      sceneImgCount (addAdvisoryRefs si referenceScenes existsImg rest parts)
        ≤ sceneImgCount parts + (rest.filter (fun r => existsImg (r + 1))).length
          + (2 - parts.length) := by
  intro rest
  induction rest with
  | nil =>
    intro parts
    simp [addAdvisoryRefs]
  | cons r rrest ih =>
    intro parts
    rw [addAdvisoryRefs]
    by_cases he : existsImg (r + 1) = true
    · rw [if_pos he]
      rcases addRecentScenes_growth referenceScenes existsImg
          [(si : ℤ) - 1, (si : ℤ) - 2] (parts ++ [RefImage.sceneImg (r + 1)])
        with ⟨d, hlen, hcnt, hd⟩
      have hfin := ih (addRecentScenes referenceScenes existsImg
        [(si : ℤ) - 1, (si : ℤ) - 2] (parts ++ [RefImage.sceneImg (r + 1)]))
      have hflt : ((r :: rrest).filter (fun x => existsImg (x + 1))).length
          = (rrest.filter (fun x => existsImg (x + 1))).length + 1 := by
        simp [List.filter_cons, he]
      have hcnt1 : sceneImgCount (parts ++ [RefImage.sceneImg (r + 1)])
          = sceneImgCount parts + 1 := by
        simp [sceneImgCount, List.countP_append]
      have hlen1 : (parts ++ [RefImage.sceneImg (r + 1)]).length = parts.length + 1 := by
        simp
      rw [hflt]
      rw [hcnt1] at hcnt
      rw [hlen1] at hlen hd
      rcases hd with h | h <;> omega
    · rw [if_neg he]
      rcases addRecentScenes_growth referenceScenes existsImg
          [(si : ℤ) - 1, (si : ℤ) - 2] parts with ⟨d, hlen, hcnt, hd⟩
      have hfin := ih (addRecentScenes referenceScenes existsImg
        [(si : ℤ) - 1, (si : ℤ) - 2] parts)
      have hflt : ((r :: rrest).filter (fun x => existsImg (x + 1))).length
          = (rrest.filter (fun x => existsImg (x + 1))).length := by
        simp [List.filter_cons, he]
      rw [hflt]
      rcases hd with h | h <;> omega

/-- C2 counterexample: scene 5 with three advisory references (scenes 1, 2
and 3, all existing on disk) and no character assets attaches four
non-character reference images — the advisory loop is not capped — so the
claimed cap of 2 is exceeded. -/
theorem c2_cap_counterexample :
    sceneImgCount (collectReferences 5 false [] [0, 1, 2] (fun _ => true)) = 4 ∧
    2 < sceneImgCount (collectReferences 5 false [] [0, 1, 2] (fun _ => true)) := by
  constructor <;> decide

/-- C2 amended: the cap of 2 applies only to the preceding-scene continuity
additions, whose guard counts every attached image, character assets
included; the advisory reference images are attached without a cap. Hence
the non-character reference count is bounded by the number of advisory
references whose images exist plus 2, not by 2. -/
theorem c2_reference_cap_amended (sceneIndex : ℕ) (includeMainChar : Bool)
    (charAssets : List ℕ) (referenceScenes : List ℕ) (existsImg : ℕ → Bool) :
    sceneImgCount (collectReferences sceneIndex includeMainChar charAssets
        referenceScenes existsImg)
      ≤ (referenceScenes.filter (fun r => existsImg (r + 1))).length + 2 := by
  unfold collectReferences
  have hbase : sceneImgCount
      (if includeMainChar then charAssets.map RefImage.charAsset else []) = 0 := by
    by_cases hinc : includeMainChar
    · rw [if_pos hinc]
      simp [sceneImgCount, List.countP_map]
    · rw [if_neg hinc]
      rfl
  have h := addAdvisoryRefs_count sceneIndex referenceScenes existsImg referenceScenes
    (if includeMainChar then charAssets.map RefImage.charAsset else [])
  rw [hbase] at h
  omega

/-- C5 counterexample: a single-scene storyboard where the completion call
behind the per-scene main-character decision raises makes
analyze_character_usage itself raise the HTTP 500 detail instead of
degrading, so the error does propagate to the caller and blocks the batch
that invoked the analysis outside its per-scene handler. -/
theorem c5_degrade_counterexample :
    analyze_character_usage ["opening shot"] (Except.ok [])
      (fun _ => Except.error "service unavailable") (fun _ => Except.ok [])
      = Except.error "OpenAI call failed: service unavailable" := rfl

/-- C5 amended: the two storyboard-level passes degrade on any raised
service error — identify_characters_across_scenes to the empty mapping and
find_character_reference_scenes to the empty list — but the per-scene
main-character decision converts a service error into an HTTP 500 error
that analyze_character_usage propagates, so that one failure does block
image generation. -/
theorem c5_degradation_amended :
    (∀ e, identify_characters_across_scenes (Except.error e) = []) ∧
    (∀ idx e, find_character_reference_scenes idx (Except.error e) = []) ∧
    (∀ e, should_include_character (Except.error e)
        = Except.error ("OpenAI call failed: " ++ e)) ∧
    (∀ (s : String) (rest : List String) idResp refResp
       (incResp : ℕ → Except String String) (e : String),
      incResp 0 = Except.error e →
      analyze_character_usage (s :: rest) idResp incResp refResp
        = Except.error ("OpenAI call failed: " ++ e)) := by
  refine ⟨fun e => rfl, ?_, fun e => rfl, ?_⟩
  · intro idx e
    unfold find_character_reference_scenes
    by_cases h0 : idx = 0
    · rw [if_pos h0]
    · rw [if_neg h0]
  · intro s rest idResp refResp incResp e he
    unfold analyze_character_usage analyzeLoop
    rw [he]
    rfl

/-! ## Theorems about the cascade, the canonical write and the batch loops -/

set_option maxHeartbeats 1600000 in
theorem fallbackBCD_attempts (si : ℕ) (rE cE rN : Bool) (rB rC rD : Resp) :
    ((fallbackBCD si rE cE rN rB rC rD).1.length ≤ 3) ∧
    (∀ a ∈ (fallbackBCD si rE cE rN rB rC rD).1, a ≤ 1) := by
  unfold fallbackBCD
  cases rB <;> cases rC <;> cases rD <;>
    simp only [updCand] <;>
    split_ifs <;>
    (try simp)

/-- C3 counterexample: with the full set holding 2 references, Strategy A
and the zero-reference A-retry both end in IMAGE_OTHER and Strategy B (one
reference, the preceding scene) then succeeds. The attempted
reference-image counts are 2, 0, 1 — the zero-image retry runs before the
one-image strategies, so the sequence is not monotonically decreasing. -/
theorem c3_cascade_counterexample :
    (runCascade 2 5 true true true Resp.imageOther Resp.imageOther
        Resp.stop Resp.stop Resp.stop).1 = [2, 0, 1] ∧
    decreasingCounts [2, 0, 1] = false := by
  constructor <;> decide

/-- C3 amended: the cascade makes at most 5 attempts and always reaches a
terminal outcome whatever the service replies; the first attempt uses the
full reference set and every later attempt uses at most one reference image
(zero for A-retry and D, at most one for B and C). The reference counts are
not monotonically decreasing, since the zero-reference A-retry precedes the
one-reference strategies B and C. -/
theorem c3_cascade_amended (k si : ℕ) (rE cE rN : Bool) (rA rAR rB rC rD : Resp) :
    ((runCascade k si rE cE rN rA rAR rB rC rD).1.length ≤ 5) ∧
    ((runCascade k si rE cE rN rA rAR rB rC rD).1.head? = some k) ∧
    (∀ a ∈ (runCascade k si rE cE rN rA rAR rB rC rD).1.tail, a ≤ 1) := by
  rcases fallbackBCD_attempts si rE cE rN rB rC rD with ⟨hlen, hmem⟩
  cases rA <;> cases rAR <;> simp_all [runCascade]

/-- C4 counterexample: the save block for slug default and scene 1 performs
no rename at all and writes the image bytes directly to the canonical path,
so the claimed write-to-temporary-then-replace discipline is absent: an
interruption inside the direct write is observable at the canonical path. -/
theorem c4_atomic_write_counterexample :
    ((saveSceneImageOps "default" 1 42).all (fun op => !op.isRename)) = true ∧
    FsOp.write (scene_image_path "default" 1) 42 ∈ saveSceneImageOps "default" 1 42 := by
  constructor <;> decide

/-- C4 amended: on SUCCESS the bytes are written by direct open-write, once
to the canonical generated_scenes path and once to the images mirror path,
each after a directory creation; no temporary file or rename is involved,
so the write is not atomic with respect to partial files. -/
theorem c4_direct_write_amended (slug : String) (sceneIndex : ℕ) (imageBytes : ℕ) :
    FsOp.write (scene_image_path slug sceneIndex) imageBytes
      ∈ saveSceneImageOps slug sceneIndex imageBytes ∧
    (∀ op ∈ saveSceneImageOps slug sceneIndex imageBytes, op.isRename = false) ∧
    ¬ atomicReplaceWrite (saveSceneImageOps slug sceneIndex imageBytes)
        (scene_image_path slug sceneIndex) := by
  refine ⟨by simp [saveSceneImageOps], ?_, ?_⟩
  · intro op hop
    simp only [saveSceneImageOps, List.mem_cons, List.not_mem_nil, or_false] at hop
    rcases hop with h | h | h | h <;> rw [h] <;> rfl
  · rintro ⟨⟨tmp, htmp⟩, _⟩
    simp [saveSceneImageOps] at htmp

/-- C6 counterexample: a five-scene batch where the generation of scene 3
raises. The generate-scenes loop has no per-scene handler: the whole
request fails with the HTTP 500 detail, no per-scene breakdown is returned
and scenes 4 and 5 are never attempted. -/
theorem c6_batch_counterexample :
    generateScenesLoop
      (fun i => if i = 3 then Except.error "generation failed" else Except.ok i) 1
      [⟨some "s1"⟩, ⟨some "s2"⟩, ⟨some "s3"⟩, ⟨some "s4"⟩, ⟨some "s5"⟩]
      = Except.error "Storyboard processing failed: generation failed" := by
  rfl

theorem storyboardImagesLoop_length (gen : ℕ → Except String ℕ) (scenes : List BScene) :
    ∀ i, (storyboardImagesLoop gen i scenes).length = scenes.length := by
  induction scenes with
  | nil => intro i; rfl
  | cons s rest ih => intro i; simp [storyboardImagesLoop, ih (i + 1)]

theorem filter_isOk_length_split (l : List (Except String ℕ)) :
    (l.filter (fun r => r.isOk)).length + (l.filter (fun r => !r.isOk)).length
      = l.length := by
  induction l with
  | nil => rfl
  | cons r rest ih =>
    by_cases h : r.isOk <;> simp [List.filter_cons, h] <;> omega

theorem generateScenesLoop_isOk (gen : ℕ → Except String ℕ) (scenes : List BScene) :
    ∀ i, (generateScenesLoop gen i scenes).isOk = allDescribedOk gen i scenes := by
  induction scenes with
  | nil => intro i; rfl
  | cons s rest ih =>
    intro i
    rw [generateScenesLoop, allDescribedOk]
    by_cases hs : truthyStr s.sceneDescription
    · rw [if_pos hs, if_pos hs]
      cases hg : gen i with
      | error e => simp [Except.isOk, Except.toBool, hg]
      | ok r =>
        have : (match generateScenesLoop gen (i + 1) rest with
            | Except.error e => Except.error e
            | Except.ok tail => Except.ok (r :: tail) : Except String (List ℕ)).isOk
            = (generateScenesLoop gen (i + 1) rest).isOk := by
          cases generateScenesLoop gen (i + 1) rest <;> rfl
        rw [this, ih (i + 1)]
        simp [Except.isOk, Except.toBool, hg]
    · rw [if_neg hs, if_neg hs]
      exact ih (i + 1)

/-- C6 amended: generate-storyboard-images isolates per-scene failures and
always returns one result per scene with matching success and failure
counts; generate-scenes, by contrast, wraps no per-scene call — it comes
back successful exactly when every scene with a truthy description
generates successfully, so one raised failure turns the whole request into
an HTTP 500 with no per-scene breakdown and later scenes unprocessed. Its
only per-scene tolerance is skipping scenes with falsy descriptions. -/
theorem c6_batch_isolation_amended (scenes : List BScene) (gen : ℕ → Except String ℕ) :
    (generate_all_storyboard_images scenes gen).results.length = scenes.length ∧
    (generate_all_storyboard_images scenes gen).successful
      + (generate_all_storyboard_images scenes gen).failed = scenes.length ∧
    (∀ i, (generateScenesLoop gen i scenes).isOk = allDescribedOk gen i scenes) := by
  refine ⟨storyboardImagesLoop_length gen scenes 1, ?_, generateScenesLoop_isOk gen scenes⟩
  have h := filter_isOk_length_split (storyboardImagesLoop gen 1 scenes)
  have hlen := storyboardImagesLoop_length gen scenes 1
  simpa [generate_all_storyboard_images, hlen] using h

end ADgent
